import Mathlib

/-!
# libdeno `internal.h`: the wrapped isolate and its user-data scope

A shallow embedding of `src/libdeno/internal.h`.

* Raw pointers are addresses (`Nat`), `0` being `nullptr`.
* `std::map<K, V>` is its in-order list of entries; the container keeps the
  keys strictly increasing (`StdMap.Ordered`).
* A `CHECK` / `DCHECK` that fails aborts the process: a method that contains
  one returns `Option`, `none` standing for the fatal assertion failure.
  `CHECK` is always compiled in; `DCHECK` only in builds that enable it,
  which is the parameter `dchecks` of the methods that contain one.
* The destructor is embedded as the ordered list of releases its body makes and
  the way the run ends: to completion, or at the call `isolate_->Dispose()`
  through a null `isolate_`, which is undefined behaviour and after which nothing
  more of the body is taken to run.
-/

namespace deno

/-- A raw pointer: an address, `0` is `nullptr`. -/
abbrev Ptr := Nat

/-- A `v8::Local<T>` handle to an engine value. -/
abbrev Local := Nat

/-- A non-empty `v8::Persistent<T>`: built by `Persistent(isolate, value)`. An
empty persistent handle is `none` of `Option Persistent`. -/
structure Persistent where
  isolate : Ptr
  value : Local
  deriving DecidableEq, Repr

/-! ## `std::map` -/

/-- The entries of a `std::map<size_t, β>` in iteration order. -/
abbrev StdMap (β : Type) := List (Nat × β)

namespace StdMap

/-- The ordering the container maintains: keys strictly increasing. -/
def Ordered {β : Type} (m : StdMap β) : Prop :=
  List.Pairwise (fun a b => a.1 < b.1) m

instance {β : Type} (m : StdMap β) : Decidable (Ordered m) := by
  unfold Ordered; infer_instance

/-- Method `find(k)`: the mapped value of the entry with key `k`, `none` for `end()`. -/
def find {β : Type} : StdMap β → Nat → Option β
  | [], _ => none
  | (k', v) :: rest, k => if k = k' then some v else find rest k

/-- Method `erase(it)` at `it = find(k)`: drops the entry `find` stops at. -/
def erase {β : Type} : StdMap β → Nat → StdMap β
  | [], _ => []
  | (k', v) :: rest, k => if k = k' then rest else (k', v) :: erase rest k

/-- Method `emplace(k, v)`: inserts at the ordered position unless an entry with
an equivalent key exists, in which case the container is left as it is. -/
def emplace {β : Type} : StdMap β → Nat → β → StdMap β
  | [], k, v => [(k, v)]
  | (k', v') :: rest, k, v =>
    if k < k' then (k, v) :: (k', v') :: rest
    else if k = k' then (k', v') :: rest
    else (k', v') :: emplace rest k v

/-- Number of entries stored under key `k`. -/
def countKey {β : Type} (m : StdMap β) (k : Nat) : Nat :=
  (m.filter (fun e => decide (e.1 = k))).length

end StdMap

/-! ## Types declared outside `internal.h` -/

/-- Modelled from the spec: the declaration of `deno_buf` (`deno.h`) is not among
the sources. The five fields are those of the initialiser of `empty_buf`, with the
names the constructor uses (`data_ptr`, `data_len`); lengths are `size_t`. -/
structure deno_buf where
  alloc_ptr : Ptr
  alloc_len : Nat
  data_ptr : Ptr
  data_len : Nat
  zero_copy_id : Nat
  deriving DecidableEq, Repr

/-- Constant `empty_buf = {nullptr, 0, nullptr, 0, 0}`. -/
def empty_buf : deno_buf := ⟨0, 0, 0, 0, 0⟩

/-- Modelled from the spec: the declaration of `deno_config` (`deno.h`) is not
among the sources. The fields are the ones the constructor reads: the optional
snapshot payload, the shared buffer and the receive callback. -/
structure deno_config where
  load_snapshot : deno_buf
  shared : deno_buf
  recv_cb : Ptr
  deriving DecidableEq, Repr

/-- Type `v8::StartupData`: a data pointer and an `int` byte count. -/
structure StartupData where
  data : Ptr
  raw_size : Int
  deriving DecidableEq, Repr

/-- Conversion `static_cast<int>(n)` of a `size_t`: reduction modulo `2^32` into the
range of a 32-bit two's-complement `int`. -/
def static_cast_int (n : Nat) : Int :=
  if n % 2 ^ 32 < 2 ^ 31 then ((n % 2 ^ 32 : Nat) : Int)
  else ((n % 2 ^ 32 : Nat) : Int) - 2 ^ 32

/-! ## `ModuleInfo` and `DenoIsolate` -/

/-- Struct `ModuleInfo`. -/
structure ModuleInfo where
  main : Bool
  name : String
  handle : Option Persistent
  import_specifiers : List String
  deriving DecidableEq, Repr

/-- Class `DenoIsolate`: the data members, in declaration order. `snapshot_` is
`none` until the constructor assigns it. -/
structure DenoIsolate where
  isolate_ : Ptr
  locker_ : Ptr
  array_buffer_allocator_ : Ptr
  shared_ : deno_buf
  current_args_ : Ptr
  snapshot_creator_ : Ptr
  global_import_buf_ptr_ : Ptr
  recv_cb_ : Ptr
  next_zero_copy_id_ : Nat
  user_data_ : Ptr
  mods_ : List (Int × ModuleInfo)
  mods_by_name_ : List (String × Int)
  resolve_cb_ : Ptr
  context_ : Option Persistent
  zero_copy_map_ : StdMap Persistent
  pending_promise_map_ : List (Int × Persistent)
  last_exception_ : String
  recv_ : Option Persistent
  snapshot_ : Option StartupData
  global_import_buf_ : Option Persistent
  shared_ab_ : Option Persistent
  deriving DecidableEq, Repr

namespace DenoIsolate

/-- The constructor `DenoIsolate(deno_config config)`. `allocator` is the pointer
`v8::ArrayBuffer::Allocator::NewDefaultAllocator()` returns. -/
def new (config : deno_config) (allocator : Ptr) : DenoIsolate :=
  { isolate_ := 0
    locker_ := 0
    array_buffer_allocator_ := allocator
    shared_ := config.shared
    current_args_ := 0
    snapshot_creator_ := 0
    global_import_buf_ptr_ := 0
    recv_cb_ := config.recv_cb
    next_zero_copy_id_ := 1
    user_data_ := 0
    mods_ := []
    mods_by_name_ := []
    resolve_cb_ := 0
    context_ := none
    zero_copy_map_ := []
    pending_promise_map_ := []
    last_exception_ := ""
    recv_ := none
    snapshot_ :=
      if config.load_snapshot.data_ptr ≠ 0 then
        some { data := config.load_snapshot.data_ptr
               raw_size := static_cast_int config.load_snapshot.data_len }
      else none
    global_import_buf_ := none
    shared_ab_ := none }

/-- One release made by the destructor's body. -/
inductive Release where
  | shared_ab_reset
  | delete_locker (p : Ptr)
  | delete_snapshot_creator (p : Ptr)
  | isolate_dispose (p : Ptr)
  | delete_array_buffer_allocator (p : Ptr)
  deriving DecidableEq, Repr

/-- How a run of the destructor ends, with the releases made up to that point, in
execution order. -/
inductive Teardown where
  /-- The body ran to its end. -/
  | completed (releases : List Release)
  /-- A `CHECK` or `DCHECK` failed. -/
  | assertion_failed (releases : List Release)
  /-- A member function was called through `nullptr`. -/
  | null_dereference (releases : List Release)
  deriving DecidableEq, Repr

/-- The destructor `~DenoIsolate()`. `locker_` and `snapshot_creator_` are tested
before they are deleted; `isolate_` is not tested before `isolate_->Dispose()`, so
with no snapshot creator and a null `isolate_` the run ends there, before
`delete array_buffer_allocator_`. The body contains no `CHECK` or `DCHECK`. -/
def destructor (d : DenoIsolate) : Teardown :=
  let first : List Release :=
    [Release.shared_ab_reset]
      ++ (if d.locker_ ≠ 0 then [Release.delete_locker d.locker_] else [])
  if d.snapshot_creator_ ≠ 0 then
    Teardown.completed
      (first ++ [Release.delete_snapshot_creator d.snapshot_creator_,
                 Release.delete_array_buffer_allocator d.array_buffer_allocator_])
  else if d.isolate_ = 0 then
    Teardown.null_dereference first
  else
    Teardown.completed
      (first ++ [Release.isolate_dispose d.isolate_,
                 Release.delete_array_buffer_allocator d.array_buffer_allocator_])

/-- What `DeleteZeroCopyRef` leaves: the isolate, and the persistent handle it
called `Reset()` on, if any. -/
structure Deleted where
  deno : DenoIsolate
  reset : Option Persistent
  deriving DecidableEq, Repr

/-- Method `DeleteZeroCopyRef(zero_copy_id)`. `DCHECK_NE(zero_copy_id, 0)` aborts
when DCHECKs are compiled in and the id is zero. -/
def DeleteZeroCopyRef (dchecks : Bool) (d : DenoIsolate) (zero_copy_id : Nat) :
    Option Deleted :=
  if dchecks = true ∧ zero_copy_id = 0 then none
  else
    match d.zero_copy_map_.find zero_copy_id with
    | some p =>
      some { deno := { d with zero_copy_map_ := d.zero_copy_map_.erase zero_copy_id }
             reset := some p }
    | none => some { deno := d, reset := none }

/-- Method `AddZeroCopyRef(zero_copy_id, zero_copy_v)`. -/
def AddZeroCopyRef (d : DenoIsolate) (zero_copy_id : Nat) (zero_copy_v : Local) :
    DenoIsolate :=
  { d with
    zero_copy_map_ :=
      d.zero_copy_map_.emplace zero_copy_id
        { isolate := d.isolate_, value := zero_copy_v } }

/-- Modelled from the spec: the caller that issues buffer ids is not among the
sources. Per the spec, `attach` "assigns the next nonzero, monotonically
increasing identifier and stores a persistent reference": it issues the current
value of the counter `next_zero_copy_id_`, stores the reference under it with
`AddZeroCopyRef` and advances the counter by one. The counter is a natural
number here: wrap-around of the `size_t` field is outside this model, and the two
agree as long as fewer than `2^64 - 1` ids have been issued (`attachAll_ids_below`). -/
def attach (d : DenoIsolate) (bufferView : Local) : Nat × DenoIsolate :=
  (d.next_zero_copy_id_,
    { AddZeroCopyRef d d.next_zero_copy_id_ bufferView with
      next_zero_copy_id_ := d.next_zero_copy_id_ + 1 })

/-- A sequence of `attach` operations: the ids issued, in order, and the final
isolate. -/
def attachAll : DenoIsolate → List Local → List Nat × DenoIsolate
  | d, [] => ([], d)
  | d, v :: vs =>
    let r := attach d v
    let rs := attachAll r.2 vs
    (r.1 :: rs.1, rs.2)

end DenoIsolate

/-! ## `UserDataScope` -/

/-- Class `UserDataScope`: the members `prev_data_` and `data_`. The member
`deno_` points at the one isolate, which the methods take as their state. -/
structure UserDataScope where
  prev_data_ : Ptr
  data_ : Ptr
  deriving DecidableEq, Repr

namespace UserDataScope

/-- The constructor `UserDataScope(deno, data)`: `none` when its `CHECK` fails. -/
def enter (deno : DenoIsolate) (data : Ptr) : Option (UserDataScope × DenoIsolate) :=
  if deno.user_data_ = 0 ∨ deno.user_data_ = data then
    some ({ prev_data_ := deno.user_data_, data_ := data },
          { deno with user_data_ := data })
  else none

/-- The destructor `~UserDataScope()`, run on the isolate as it is at scope exit:
`none` when its `CHECK` fails. -/
def exit (s : UserDataScope) (deno : DenoIsolate) : Option DenoIsolate :=
  if deno.user_data_ = s.data_ then some { deno with user_data_ := s.prev_data_ }
  else none

end UserDataScope

/-! ## Concrete isolates -/

/-- A config without snapshot payload. -/
def plainConfig : deno_config :=
  { load_snapshot := empty_buf, shared := empty_buf, recv_cb := 9 }

/-- A config whose snapshot payload is `2^31` bytes long. -/
def bigSnapshotConfig : deno_config :=
  { load_snapshot := ⟨4096, 2 ^ 31, 4096, 2 ^ 31, 0⟩, shared := empty_buf, recv_cb := 9 }

/-- A config with a 16-byte snapshot payload and a shared buffer. -/
def smallSnapshotConfig : deno_config :=
  { load_snapshot := ⟨4096, 16, 4096, 16, 0⟩, shared := ⟨8192, 32, 8192, 32, 0⟩,
    recv_cb := 9 }

/-- A freshly constructed isolate. -/
def freshIsolate : DenoIsolate := DenoIsolate.new plainConfig 100

/-- An isolate with an engine isolate attached and two live buffer references. -/
def tableIsolate : DenoIsolate :=
  { freshIsolate with
    isolate_ := 50
    next_zero_copy_id_ := 4
    zero_copy_map_ := [(1, ⟨50, 11⟩), (3, ⟨50, 13⟩)] }

/-- An isolate destroyed while its locker is set. -/
def lockedIsolate : DenoIsolate :=
  { freshIsolate with isolate_ := 50, locker_ := 60 }

/-! ## Facts about the `std::map` operations -/

namespace StdMap

theorem find_erase_ne {β : Type} (m : StdMap β) (k j : Nat) (hj : j ≠ k) :
    find (erase m k) j = find m j := by
  induction m with
  | nil => rfl
  | cons e rest ih =>
    obtain ⟨k', v⟩ := e
    by_cases hk : k = k'
    · subst hk
      simp [erase, find, hj]
    · by_cases hjk : j = k'
      · simp [erase, find, hk, hjk]
      · simp [erase, find, hk, hjk, ih]

theorem erase_of_find_none {β : Type} (m : StdMap β) (k : Nat)
    (h : find m k = none) : erase m k = m := by
  induction m with
  | nil => rfl
  | cons e rest ih =>
    obtain ⟨k', v⟩ := e
    by_cases hk : k = k'
    · simp [find, hk] at h
    · simp only [find, hk, if_false] at h
      simp [erase, hk, ih h]

theorem find_none_of_lt {β : Type} (m : StdMap β) (k : Nat)
    (h : ∀ e ∈ m, k < e.1) : find m k = none := by
  induction m with
  | nil => rfl
  | cons e rest ih =>
    obtain ⟨k', v⟩ := e
    have hk : k < k' := h (k', v) (List.mem_cons_self _ _)
    have hne : k ≠ k' := Nat.ne_of_lt hk
    simp only [find, hne, if_false]
    exact ih (fun e he => h e (List.mem_cons_of_mem _ he))

theorem find_erase_self {β : Type} (m : StdMap β) (k : Nat) (ho : Ordered m) :
    find (erase m k) k = none := by
  induction m with
  | nil => rfl
  | cons e rest ih =>
    obtain ⟨k', v⟩ := e
    have hcons := List.pairwise_cons.mp ho
    by_cases hk : k = k'
    · subst hk
      simp only [erase, if_true]
      exact find_none_of_lt rest k (fun e he => hcons.1 e he)
    · simp only [erase, hk, if_false, find]
      exact ih hcons.2

theorem mem_erase {β : Type} (m : StdMap β) (k : Nat) (e : Nat × β)
    (he : e ∈ erase m k) : e ∈ m := by
  induction m with
  | nil => simp [erase] at he
  | cons a rest ih =>
    obtain ⟨k', v⟩ := a
    by_cases hk : k = k'
    · simp only [erase, hk, if_true] at he
      exact List.mem_cons_of_mem _ he
    · simp only [erase, hk, if_false, List.mem_cons] at he
      rcases he with he | he
      · exact he ▸ List.mem_cons_self _ _
      · exact List.mem_cons_of_mem _ (ih he)

theorem ordered_erase {β : Type} (m : StdMap β) (k : Nat) (ho : Ordered m) :
    Ordered (erase m k) := by
  induction m with
  | nil => exact ho
  | cons a rest ih =>
    obtain ⟨k', v⟩ := a
    have hcons := List.pairwise_cons.mp ho
    by_cases hk : k = k'
    · simp only [erase, hk, if_true]
      exact hcons.2
    · simp only [erase, hk, if_false]
      exact List.pairwise_cons.mpr
        ⟨fun e he => hcons.1 e (mem_erase rest k e he), ih hcons.2⟩

theorem find_emplace_ne {β : Type} (m : StdMap β) (k j : Nat) (v : β) (hj : j ≠ k) :
    find (emplace m k v) j = find m j := by
  induction m with
  | nil => simp [emplace, find, hj]
  | cons e rest ih =>
    obtain ⟨k', v'⟩ := e
    by_cases hlt : k < k'
    · simp [emplace, find, hlt, hj]
    · by_cases hk : k = k'
      · simp [emplace, hk]
      · by_cases hjk : j = k'
        · simp [emplace, find, hlt, hk, hjk]
        · simp [emplace, find, hlt, hk, hjk, ih]

theorem find_emplace_absent {β : Type} (m : StdMap β) (k : Nat) (v : β)
    (h : find m k = none) : find (emplace m k v) k = some v := by
  induction m with
  | nil => simp [emplace, find]
  | cons e rest ih =>
    obtain ⟨k', v'⟩ := e
    by_cases hk : k = k'
    · simp [find, hk] at h
    · simp only [find, hk, if_false] at h
      by_cases hlt : k < k'
      · simp [emplace, find, hlt]
      · simp [emplace, find, hlt, hk, ih h]

theorem emplace_of_find_some {β : Type} (m : StdMap β) (k : Nat) (v : β)
    (ho : Ordered m) (h : find m k ≠ none) : emplace m k v = m := by
  induction m with
  | nil => simp [find] at h
  | cons e rest ih =>
    obtain ⟨k', v'⟩ := e
    have hcons := List.pairwise_cons.mp ho
    by_cases hk : k = k'
    · simp [emplace, hk]
    · simp only [find, hk, if_false] at h
      by_cases hlt : k < k'
      · exfalso
        apply h
        exact find_none_of_lt rest k
          (fun e he => Nat.lt_trans hlt (hcons.1 e he))
      · simp [emplace, hlt, hk, ih hcons.2 h]

theorem erase_emplace {β : Type} (m : StdMap β) (k : Nat) (v : β)
    (h : find m k = none) : erase (emplace m k v) k = m := by
  induction m with
  | nil => simp [emplace, erase]
  | cons e rest ih =>
    obtain ⟨k', v'⟩ := e
    by_cases hk : k = k'
    · simp [find, hk] at h
    · simp only [find, hk, if_false] at h
      by_cases hlt : k < k'
      · simp [emplace, erase, hlt]
      · simp [emplace, erase, hlt, hk, ih h]

theorem mem_emplace {β : Type} (m : StdMap β) (k : Nat) (v : β) (e : Nat × β)
    (he : e ∈ emplace m k v) : e = (k, v) ∨ e ∈ m := by
  induction m with
  | nil =>
    simp only [emplace, List.mem_singleton] at he
    exact Or.inl he
  | cons a rest ih =>
    obtain ⟨k', v'⟩ := a
    by_cases hlt : k < k'
    · simp only [emplace, hlt, if_true, List.mem_cons] at he
      rcases he with he | he | he
      · exact Or.inl he
      · exact Or.inr (he ▸ List.mem_cons_self _ _)
      · exact Or.inr (List.mem_cons_of_mem _ he)
    · by_cases hk : k = k'
      · subst hk
        simp only [emplace, Nat.lt_irrefl, if_false, if_true] at he
        exact Or.inr he
      · simp only [emplace, hlt, hk, if_false, List.mem_cons] at he
        rcases he with he | he
        · exact Or.inr (he ▸ List.mem_cons_self _ _)
        · rcases ih he with h1 | h1
          · exact Or.inl h1
          · exact Or.inr (List.mem_cons_of_mem _ h1)

theorem ordered_emplace {β : Type} (m : StdMap β) (k : Nat) (v : β)
    (ho : Ordered m) : Ordered (emplace m k v) := by
  induction m with
  | nil => simp [emplace, Ordered]
  | cons a rest ih =>
    obtain ⟨k', v'⟩ := a
    have hcons := List.pairwise_cons.mp ho
    by_cases hlt : k < k'
    · simp only [emplace, hlt, if_true]
      refine List.pairwise_cons.mpr ⟨?_, ho⟩
      intro e he
      rcases List.mem_cons.mp he with he | he
      · rw [he]; exact hlt
      · exact Nat.lt_trans hlt (hcons.1 e he)
    · by_cases hk : k = k'
      · subst hk
        simp only [emplace, Nat.lt_irrefl, if_false, if_true]
        exact ho
      · simp only [emplace, hlt, hk, if_false]
        refine List.pairwise_cons.mpr ⟨?_, ih hcons.2⟩
        intro e he
        rcases mem_emplace rest k v e he with h1 | h1
        · rw [h1]
          exact Nat.lt_of_le_of_ne (Nat.le_of_not_lt hlt) (fun h => hk h.symm)
        · exact hcons.1 e h1

theorem countKey_eq_zero_of_lt {β : Type} (m : StdMap β) (k : Nat)
    (h : ∀ e ∈ m, k < e.1) : countKey m k = 0 := by
  unfold countKey
  rw [List.length_eq_zero, List.filter_eq_nil_iff]
  intro e he
  have := h e he
  simp only [decide_eq_true_eq]
  omega

theorem countKey_cons {β : Type} (e : Nat × β) (rest : StdMap β) (k : Nat) :
    countKey (e :: rest) k = (if e.1 = k then 1 else 0) + countKey rest k := by
  unfold countKey
  by_cases h : e.1 = k
  · simp [List.filter_cons, h]; omega
  · simp [List.filter_cons, h]

theorem countKey_emplace {β : Type} (m : StdMap β) (k : Nat) (v : β)
    (ho : Ordered m) : countKey (emplace m k v) k = 1 := by
  induction m with
  | nil => simp [emplace, countKey]
  | cons a rest ih =>
    obtain ⟨k', v'⟩ := a
    have hcons := List.pairwise_cons.mp ho
    by_cases hlt : k < k'
    · have hz : countKey rest k = 0 :=
        countKey_eq_zero_of_lt rest k (fun e he => Nat.lt_trans hlt (hcons.1 e he))
      have hne : ¬ k' = k := fun h => Nat.lt_irrefl k (h ▸ hlt)
      simp [emplace, hlt, countKey_cons, hz, hne]
    · by_cases hk : k = k'
      · subst hk
        have hz : countKey rest k = 0 :=
          countKey_eq_zero_of_lt rest k (fun e he => hcons.1 e he)
        simp [emplace, countKey_cons, hz]
      · have hne : ¬ k' = k := fun h => hk h.symm
        simp [emplace, hlt, hk, countKey_cons, hne, ih hcons.2]

end StdMap

/-! ## Buffer ids issued by `attach` -/

namespace DenoIsolate

theorem attachAll_ids (d : DenoIsolate) (vs : List Local) :
    (attachAll d vs).1 = List.range' d.next_zero_copy_id_ vs.length := by
  induction vs generalizing d with
  | nil => rfl
  | cons v vs ih =>
    simp only [attachAll, List.length_cons, List.range'_succ]
    rw [ih]
    rfl

theorem attachAll_ids_below (d : DenoIsolate) (vs : List Local) (bound : Nat)
    (h : d.next_zero_copy_id_ + vs.length ≤ bound) :
    ∀ id ∈ (attachAll d vs).1, id < bound := by
  intro id hmem
  rw [attachAll_ids, List.mem_range'_1] at hmem
  omega

theorem attachAll_counter (d : DenoIsolate) (vs : List Local) :
    (attachAll d vs).2.next_zero_copy_id_ = d.next_zero_copy_id_ + vs.length := by
  induction vs generalizing d with
  | nil => rfl
  | cons v vs ih =>
    simp only [attachAll, List.length_cons]
    rw [ih]
    simp only [attach]
    omega

end DenoIsolate

/-! ## Properties of the isolate and its user-data scope -/

open DenoIsolate

/-- C1: for every zero-copy table (ordered, as `std::map` keeps it) and every
nonzero id, `DeleteZeroCopyRef(id)` completes, resets exactly the reference stored
under `id` (none when there is none), leaves `id` absent, leaves every other id
mapped to what it was mapped to, changes nothing at all when `id` was absent, and
touches no member other than `zero_copy_map_`. -/
theorem DeleteZeroCopyRef_removes_and_releases (dchecks : Bool) (d : DenoIsolate)
    (id : Nat) (hid : id ≠ 0) (ho : d.zero_copy_map_.Ordered) :
    ∃ r, d.DeleteZeroCopyRef dchecks id = some r ∧
      r.reset = d.zero_copy_map_.find id ∧
      r.deno.zero_copy_map_.find id = none ∧
      (∀ j, j ≠ id → r.deno.zero_copy_map_.find j = d.zero_copy_map_.find j) ∧
      (d.zero_copy_map_.find id = none → r.deno = d) ∧
      r.deno = { d with zero_copy_map_ := r.deno.zero_copy_map_ } := by
  unfold DeleteZeroCopyRef
  have hg : ¬ (dchecks = true ∧ id = 0) := fun h => hid h.2
  rw [if_neg hg]
  cases hf : d.zero_copy_map_.find id with
  | none =>
    exact ⟨_, rfl, rfl, hf, fun _ _ => rfl, fun _ => rfl, rfl⟩
  | some p =>
    refine ⟨_, rfl, rfl, ?_, ?_, ?_, rfl⟩
    · exact StdMap.find_erase_self _ _ ho
    · intro j hj
      exact StdMap.find_erase_ne _ _ _ hj
    · intro h
      cases h

/-- C1, at a table holding ids 1 and 3, deleting id 3 with DCHECKs enabled. -/
theorem DeleteZeroCopyRef_removes_and_releases_witness :
    (3 : Nat) ≠ 0 ∧ tableIsolate.zero_copy_map_.Ordered ∧
    ∃ r, tableIsolate.DeleteZeroCopyRef true 3 = some r ∧
      r.reset = tableIsolate.zero_copy_map_.find 3 ∧
      r.deno.zero_copy_map_.find 3 = none ∧
      (∀ j, j ≠ 3 → r.deno.zero_copy_map_.find j = tableIsolate.zero_copy_map_.find j) ∧
      (tableIsolate.zero_copy_map_.find 3 = none → r.deno = tableIsolate) ∧
      r.deno = { tableIsolate with zero_copy_map_ := r.deno.zero_copy_map_ } :=
  ⟨by decide, by decide,
    DeleteZeroCopyRef_removes_and_releases true tableIsolate 3 (by decide) (by decide)⟩

/-- C2, as stated, fails at id 0 when DCHECKs are enabled: on the empty table of a
fresh isolate, `AddZeroCopyRef(0, v)` followed by `DeleteZeroCopyRef(0)` stops at
`DCHECK_NE(zero_copy_id, 0)` instead of yielding the empty table. -/
theorem attach_detach_zero_id_aborts :
    freshIsolate.zero_copy_map_ = [] ∧
    (freshIsolate.AddZeroCopyRef 0 7).DeleteZeroCopyRef true 0 = none := by
  decide

/-- C2 (amended): for every id that is nonzero (or any id at all when DCHECKs are
compiled out), every value and every table that does not contain the id,
`AddZeroCopyRef(id, v)` followed by `DeleteZeroCopyRef(id)` completes, resets the
reference just stored and gives back the isolate exactly as it was; in particular
an empty table is empty again. -/
theorem attach_detach_restores (dchecks : Bool) (d : DenoIsolate) (id : Nat) (v : Local)
    (hid : id ≠ 0 ∨ dchecks = false) (habs : d.zero_copy_map_.find id = none) :
    (d.AddZeroCopyRef id v).DeleteZeroCopyRef dchecks id
        = some { deno := d, reset := some ⟨d.isolate_, v⟩ } ∧
      (d.zero_copy_map_ = [] →
        ∃ r, (d.AddZeroCopyRef id v).DeleteZeroCopyRef dchecks id = some r ∧
          r.deno.zero_copy_map_ = []) := by
  have hg : ¬ (dchecks = true ∧ id = 0) := by
    rintro ⟨h1, h2⟩
    rcases hid with h | h
    · exact h h2
    · rw [h] at h1; cases h1
  have main : (d.AddZeroCopyRef id v).DeleteZeroCopyRef dchecks id
      = some { deno := d, reset := some ⟨d.isolate_, v⟩ } := by
    unfold DeleteZeroCopyRef
    rw [if_neg hg]
    simp only [AddZeroCopyRef]
    rw [StdMap.find_emplace_absent _ _ _ habs]
    simp only [StdMap.erase_emplace _ _ _ habs]
  exact ⟨main, fun he => ⟨_, main, he⟩⟩

/-- C2 (amended), at the empty table of a fresh isolate, id 5, DCHECKs enabled. -/
theorem attach_detach_restores_witness :
    ((5 : Nat) ≠ 0 ∨ true = false) ∧ freshIsolate.zero_copy_map_.find 5 = none ∧
    (freshIsolate.AddZeroCopyRef 5 7).DeleteZeroCopyRef true 5
        = some { deno := freshIsolate, reset := some ⟨freshIsolate.isolate_, 7⟩ } ∧
      (freshIsolate.zero_copy_map_ = [] →
        ∃ r, (freshIsolate.AddZeroCopyRef 5 7).DeleteZeroCopyRef true 5 = some r ∧
          r.deno.zero_copy_map_ = []) :=
  ⟨Or.inl (by decide), by decide,
    attach_detach_restores true freshIsolate 5 7 (Or.inl (by decide)) (by decide)⟩

/-- C3, as stated, fails at id 0 when DCHECKs are enabled: id 0 is not in the
table of a fresh isolate, yet `DeleteZeroCopyRef(0)` fails `DCHECK_NE`. -/
theorem detach_zero_id_aborts :
    freshIsolate.zero_copy_map_.find 0 = none ∧
    freshIsolate.DeleteZeroCopyRef true 0 = none := by
  decide

/-- C3 (amended): for every id that is nonzero (or any id when DCHECKs are compiled
out) and every table, `DeleteZeroCopyRef(id)` of an id that is not in the table
completes, resets nothing and leaves the isolate unchanged; and applying it a second
time after a first release (of an ordered table) is such a no-op. With DCHECKs
enabled, `DeleteZeroCopyRef(0)` fails its assertion on every isolate. -/
theorem detach_absent_is_noop (dchecks : Bool) (d : DenoIsolate) (id : Nat)
    (hid : id ≠ 0 ∨ dchecks = false) :
    (d.zero_copy_map_.find id = none →
      d.DeleteZeroCopyRef dchecks id = some { deno := d, reset := none }) ∧
    (d.zero_copy_map_.Ordered → ∀ r, d.DeleteZeroCopyRef dchecks id = some r →
      r.deno.DeleteZeroCopyRef dchecks id = some { deno := r.deno, reset := none }) ∧
    d.DeleteZeroCopyRef true 0 = none := by
  have hg : ¬ (dchecks = true ∧ id = 0) := by
    rintro ⟨h1, h2⟩
    rcases hid with h | h
    · exact h h2
    · rw [h] at h1; cases h1
  have noop : ∀ e : DenoIsolate, e.zero_copy_map_.find id = none →
      e.DeleteZeroCopyRef dchecks id = some { deno := e, reset := none } := by
    intro e he
    unfold DeleteZeroCopyRef
    rw [if_neg hg, he]
  refine ⟨noop d, ?_, ?_⟩
  · intro ho r hr
    apply noop
    unfold DeleteZeroCopyRef at hr
    rw [if_neg hg] at hr
    cases hf : d.zero_copy_map_.find id with
    | none =>
      rw [hf] at hr
      cases hr
      exact hf
    | some p =>
      rw [hf] at hr
      cases hr
      exact StdMap.find_erase_self _ _ ho
  · simp [DeleteZeroCopyRef]

/-- C3 (amended), at a table holding ids 1 and 3 and the absent id 2. -/
theorem detach_absent_is_noop_witness :
    ((2 : Nat) ≠ 0 ∨ true = false) ∧
    (tableIsolate.zero_copy_map_.find 2 = none →
      tableIsolate.DeleteZeroCopyRef true 2 = some { deno := tableIsolate, reset := none }) ∧
    (tableIsolate.zero_copy_map_.Ordered → ∀ r, tableIsolate.DeleteZeroCopyRef true 2 = some r →
      r.deno.DeleteZeroCopyRef true 2 = some { deno := r.deno, reset := none }) ∧
    tableIsolate.DeleteZeroCopyRef true 0 = none :=
  ⟨Or.inl (by decide), detach_absent_is_noop true tableIsolate 2 (Or.inl (by decide))⟩

/-- C4: a freshly constructed isolate has `next_zero_copy_id_ = 1` for every
config, and every sequence of `attach` operations started from it issues the ids
`1, 2, 3, ...`: each is nonzero and each is strictly greater than the one issued
before it (indeed than every earlier one). -/
theorem issued_ids_nonzero_and_increasing (config : deno_config) (allocator : Ptr)
    (vs : List Local) :
    (DenoIsolate.new config allocator).next_zero_copy_id_ = 1 ∧
    (∀ id ∈ (attachAll (DenoIsolate.new config allocator) vs).1, id ≠ 0) ∧
    List.Chain' (fun a b => a < b) (attachAll (DenoIsolate.new config allocator) vs).1 ∧
    List.Pairwise (fun a b => a < b) (attachAll (DenoIsolate.new config allocator) vs).1 := by
  have h1 : (DenoIsolate.new config allocator).next_zero_copy_id_ = 1 := rfl
  have hp : List.Pairwise (fun a b => a < b)
      (attachAll (DenoIsolate.new config allocator) vs).1 := by
    rw [attachAll_ids, h1]
    exact List.pairwise_lt_range' 1 vs.length
  refine ⟨h1, ?_, List.Pairwise.chain' hp, hp⟩
  intro id hmem
  rw [attachAll_ids, h1, List.mem_range'_1] at hmem
  omega

/-- C5: entering `UserDataScope(deno, data)` succeeds exactly when the isolate's
`user_data_` is null or equal to `data`; on success the scope remembers the old
value and the isolate is the old isolate with `user_data_` set to `data`, every
other member unchanged; when `user_data_` is set and different from `data`, the
`CHECK` fails. -/
theorem UserDataScope_enter_iff (deno : DenoIsolate) (data : Ptr) :
    ((UserDataScope.enter deno data).isSome = true ↔
        (deno.user_data_ = 0 ∨ deno.user_data_ = data)) ∧
    (∀ s d1, UserDataScope.enter deno data = some (s, d1) →
        d1.user_data_ = data ∧ d1 = { deno with user_data_ := data } ∧
        s.prev_data_ = deno.user_data_ ∧ s.data_ = data) ∧
    ((deno.user_data_ ≠ 0 ∧ deno.user_data_ ≠ data) ↔
        UserDataScope.enter deno data = none) := by
  unfold UserDataScope.enter
  by_cases h : deno.user_data_ = 0 ∨ deno.user_data_ = data
  · rw [if_pos h]
    refine ⟨by simp [h], ?_, ?_⟩
    · intro s d1 heq
      cases heq
      exact ⟨rfl, rfl, rfl, rfl⟩
    · constructor
      · rintro ⟨h0, hd⟩
        rcases h with h | h
        · exact absurd h h0
        · exact absurd h hd
      · intro hn
        cases hn
  · rw [if_neg h]
    refine ⟨by simp [h], ?_, ?_⟩
    · intro s d1 heq
      cases heq
    · constructor
      · intro _
        rfl
      · intro _
        exact ⟨fun h0 => h (Or.inl h0), fun hd => h (Or.inr hd)⟩

/-- C6, as stated, fails: after a successful entry with data 1 on a fresh isolate,
an enclosed call that leaves `user_data_` at 2 makes scope exit fail its `CHECK`
instead of restoring the previous value. -/
theorem UserDataScope_exit_not_unconditional :
    ∃ s d1, UserDataScope.enter freshIsolate 1 = some (s, d1) ∧
      UserDataScope.exit s { d1 with user_data_ := 2 } = none :=
  ⟨{ prev_data_ := 0, data_ := 1 }, { freshIsolate with user_data_ := 1 },
    by decide, by decide⟩

/-- C6 (amended): after a successful entry, scope exit on any isolate state whose
`user_data_` still equals `data` sets `user_data_` back to the value it had before
entry and changes nothing else, whatever else the enclosed call did; on a state
whose `user_data_` differs from `data` the exit `CHECK` fails; and entry immediately
followed by exit gives back the isolate exactly as it was. -/
theorem UserDataScope_exit_restores (deno : DenoIsolate) (data : Ptr)
    (s : UserDataScope) (d1 : DenoIsolate)
    (h : UserDataScope.enter deno data = some (s, d1)) :
    (∀ d2 : DenoIsolate, d2.user_data_ = data →
        UserDataScope.exit s d2 = some { d2 with user_data_ := deno.user_data_ }) ∧
    (∀ d2 : DenoIsolate, d2.user_data_ ≠ data → UserDataScope.exit s d2 = none) ∧
    UserDataScope.exit s d1 = some deno := by
  unfold UserDataScope.enter at h
  by_cases hc : deno.user_data_ = 0 ∨ deno.user_data_ = data
  · rw [if_pos hc] at h
    cases h
    refine ⟨?_, ?_, ?_⟩
    · intro d2 h2
      simp [UserDataScope.exit, h2]
    · intro d2 h2
      simp [UserDataScope.exit, h2]
    · simp [UserDataScope.exit]
  · rw [if_neg hc] at h
    cases h

/-- C6 (amended), at a fresh isolate entered with data 1. -/
theorem UserDataScope_exit_restores_witness :
    UserDataScope.enter freshIsolate 1
      = some ({ prev_data_ := 0, data_ := 1 }, { freshIsolate with user_data_ := 1 }) ∧
    (∀ d2 : DenoIsolate, d2.user_data_ = 1 →
        UserDataScope.exit { prev_data_ := 0, data_ := 1 } d2
          = some { d2 with user_data_ := freshIsolate.user_data_ }) ∧
    (∀ d2 : DenoIsolate, d2.user_data_ ≠ 1 →
        UserDataScope.exit { prev_data_ := 0, data_ := 1 } d2 = none) ∧
    UserDataScope.exit { prev_data_ := 0, data_ := 1 }
        { freshIsolate with user_data_ := 1 } = some freshIsolate :=
  ⟨by decide,
    UserDataScope_exit_restores freshIsolate 1 { prev_data_ := 0, data_ := 1 }
      { freshIsolate with user_data_ := 1 } (by decide)⟩

/-- On every isolate that has a snapshot creator or an engine isolate attached, the
destructor completes and its releases are, in this order: the shared-array-buffer
reference, the locker if one is set, then exactly one of the snapshot creator
(when set) or disposal of the engine isolate (when not), and last the array-buffer
allocator; no release occurs twice. -/
theorem destructor_release_order_of_attached (d : DenoIsolate)
    (ha : d.snapshot_creator_ ≠ 0 ∨ d.isolate_ ≠ 0) :
    ∃ tr, d.destructor = Teardown.completed tr ∧
      tr = Release.shared_ab_reset ::
            ((if d.locker_ ≠ 0 then [Release.delete_locker d.locker_] else []) ++
              [if d.snapshot_creator_ ≠ 0 then
                  Release.delete_snapshot_creator d.snapshot_creator_
                else Release.isolate_dispose d.isolate_,
               Release.delete_array_buffer_allocator d.array_buffer_allocator_]) ∧
      tr.Nodup ∧
      tr.head? = some Release.shared_ab_reset ∧
      tr.getLast? = some (Release.delete_array_buffer_allocator d.array_buffer_allocator_) ∧
      (∀ p, Release.delete_locker p ∈ tr ↔ (d.locker_ ≠ 0 ∧ p = d.locker_)) ∧
      (∀ p, Release.delete_snapshot_creator p ∈ tr ↔
          (d.snapshot_creator_ ≠ 0 ∧ p = d.snapshot_creator_)) ∧
      (∀ p, Release.isolate_dispose p ∈ tr ↔ (d.snapshot_creator_ = 0 ∧ p = d.isolate_)) := by
  refine ⟨Release.shared_ab_reset ::
      ((if d.locker_ ≠ 0 then [Release.delete_locker d.locker_] else []) ++
        [if d.snapshot_creator_ ≠ 0 then
            Release.delete_snapshot_creator d.snapshot_creator_
          else Release.isolate_dispose d.isolate_,
         Release.delete_array_buffer_allocator d.array_buffer_allocator_]),
    ?_, rfl, ?_, ?_, ?_, ?_, ?_, ?_⟩ <;>
    by_cases hs : d.snapshot_creator_ = 0 <;> by_cases hl : d.locker_ = 0 <;>
    by_cases hi : d.isolate_ = 0 <;>
    simp [destructor, hs, hl, hi] at ha ⊢

/-- C7 fails on the code at every freshly constructed isolate: the constructor
leaves `isolate_` and `snapshot_creator_` null, so the destructor resets the
shared-array-buffer reference and then calls `isolate_->Dispose()` through
`nullptr`; neither a snapshot creator nor an engine isolate is released and the
array-buffer allocator is never freed. -/
theorem destructor_of_new_isolate_stops_at_null_isolate (config : deno_config)
    (allocator : Ptr) :
    (DenoIsolate.new config allocator).isolate_ = 0 ∧
    (DenoIsolate.new config allocator).snapshot_creator_ = 0 ∧
    (DenoIsolate.new config allocator).destructor
      = Teardown.null_dereference [Release.shared_ab_reset] ∧
    ∀ tr, (DenoIsolate.new config allocator).destructor ≠ Teardown.completed tr := by
  refine ⟨rfl, rfl, rfl, ?_⟩
  intro tr h
  have h2 : (DenoIsolate.new config allocator).destructor
      = Teardown.null_dereference [Release.shared_ab_reset] := rfl
  rw [h2] at h
  cases h

/-- C8, as stated, fails: an isolate whose `locker_` is set (and whose engine
isolate is attached) is destroyed without any assertion failing; the destructor
deletes the locker and completes. -/
theorem destructor_with_locker_completes :
    lockedIsolate.locker_ ≠ 0 ∧
    lockedIsolate.destructor =
      Teardown.completed
        [Release.shared_ab_reset, Release.delete_locker 60,
         Release.isolate_dispose 50, Release.delete_array_buffer_allocator 100] ∧
    ∀ tr, lockedIsolate.destructor ≠ Teardown.assertion_failed tr := by
  refine ⟨by decide, by decide, ?_⟩
  intro tr h
  have h2 : lockedIsolate.destructor =
      Teardown.completed
        [Release.shared_ab_reset, Release.delete_locker 60,
         Release.isolate_dispose 50, Release.delete_array_buffer_allocator 100] := by
    decide
  rw [h2] at h
  cases h

/-- C8 (amended): for every isolate whose `locker_` is set at destruction time and
that has a snapshot creator or an engine isolate attached, the destructor fails no
assertion: it deletes the locker right after resetting the shared-array-buffer
reference and completes the teardown (snapshot creator or isolate disposal, then
the allocator). -/
theorem destructor_deletes_active_locker (d : DenoIsolate) (h : d.locker_ ≠ 0)
    (ha : d.snapshot_creator_ ≠ 0 ∨ d.isolate_ ≠ 0) :
    d.destructor =
      Teardown.completed
        [Release.shared_ab_reset, Release.delete_locker d.locker_,
         if d.snapshot_creator_ ≠ 0 then
           Release.delete_snapshot_creator d.snapshot_creator_
         else Release.isolate_dispose d.isolate_,
         Release.delete_array_buffer_allocator d.array_buffer_allocator_] := by
  by_cases hs : d.snapshot_creator_ = 0
  · have hi : d.isolate_ ≠ 0 := by
      rcases ha with h1 | h1
      · exact absurd hs h1
      · exact h1
    simp [destructor, h, hs, hi]
  · simp [destructor, h, hs]

/-- C8 (amended), at an isolate with locker 60, engine isolate 50 and no snapshot
creator. -/
theorem destructor_deletes_active_locker_witness :
    lockedIsolate.locker_ ≠ 0 ∧
    (lockedIsolate.snapshot_creator_ ≠ 0 ∨ lockedIsolate.isolate_ ≠ 0) ∧
    lockedIsolate.destructor =
      Teardown.completed
        [Release.shared_ab_reset, Release.delete_locker lockedIsolate.locker_,
         if lockedIsolate.snapshot_creator_ ≠ 0 then
           Release.delete_snapshot_creator lockedIsolate.snapshot_creator_
         else Release.isolate_dispose lockedIsolate.isolate_,
         Release.delete_array_buffer_allocator lockedIsolate.array_buffer_allocator_] :=
  ⟨by decide, Or.inr (by decide),
    destructor_deletes_active_locker lockedIsolate (by decide) (Or.inr (by decide))⟩

theorem static_cast_int_range (n : Nat) :
    -(2 ^ 31 : Int) ≤ static_cast_int n ∧ static_cast_int n < 2 ^ 31 := by
  unfold static_cast_int
  split <;> omega

theorem static_cast_int_eq_iff (n : Nat) :
    static_cast_int n = (n : Int) ↔ n < 2 ^ 31 := by
  unfold static_cast_int
  split <;> omega

theorem static_cast_int_congr (n : Nat) :
    (static_cast_int n - (n : Int)) % 2 ^ 32 = 0 := by
  unfold static_cast_int
  split <;> omega

/-- C9, as stated, fails at `data_len = 2^31`: the constructed isolate's
`snapshot_.raw_size` is `-2^31`, not `data_len`. -/
theorem constructor_raw_size_truncates :
    bigSnapshotConfig.load_snapshot.data_ptr ≠ 0 ∧
    bigSnapshotConfig.load_snapshot.data_len = 2 ^ 31 ∧
    ∃ sd, (DenoIsolate.new bigSnapshotConfig 100).snapshot_ = some sd ∧
      sd.raw_size = -(2 ^ 31 : Int) ∧
      sd.raw_size ≠ (bigSnapshotConfig.load_snapshot.data_len : Int) := by
  refine ⟨by decide, rfl, ⟨4096, -(2 ^ 31 : Int)⟩, ?_, rfl, ?_⟩
  · decide
  · decide

/-- C9 (amended): for every config, construction stores `config.recv_cb` as the
receive callback and `config.shared` as the shared buffer; and for every config
whose `load_snapshot.data_ptr` is non-null, the constructed isolate's `snapshot_`
has `data` equal to that pointer and `raw_size` equal to
`static_cast<int>(data_len)`: a value of the 32-bit signed range congruent to
`data_len` modulo `2^32`, which equals `data_len` exactly when `data_len < 2^31`. -/
theorem constructor_attaches_snapshot (config : deno_config) (allocator : Ptr) :
    (DenoIsolate.new config allocator).recv_cb_ = config.recv_cb ∧
    (DenoIsolate.new config allocator).shared_ = config.shared ∧
    (config.load_snapshot.data_ptr ≠ 0 →
      ∃ sd, (DenoIsolate.new config allocator).snapshot_ = some sd ∧
        sd.data = config.load_snapshot.data_ptr ∧
        sd.raw_size = static_cast_int config.load_snapshot.data_len ∧
        (sd.raw_size = (config.load_snapshot.data_len : Int) ↔
          config.load_snapshot.data_len < 2 ^ 31) ∧
        (-(2 ^ 31 : Int) ≤ sd.raw_size ∧ sd.raw_size < 2 ^ 31) ∧
        (sd.raw_size - (config.load_snapshot.data_len : Int)) % 2 ^ 32 = 0) := by
  refine ⟨rfl, rfl, ?_⟩
  intro h
  refine ⟨⟨config.load_snapshot.data_ptr,
      static_cast_int config.load_snapshot.data_len⟩, ?_, rfl, rfl, ?_, ?_, ?_⟩
  · simp [DenoIsolate.new, h]
  · exact static_cast_int_eq_iff _
  · exact static_cast_int_range _
  · exact static_cast_int_congr _

/-- C9 (amended), at a config with a 16-byte snapshot payload at address 4096, and
the callback and shared buffer at a config without snapshot payload. -/
theorem constructor_attaches_snapshot_witness :
    (DenoIsolate.new plainConfig 100).recv_cb_ = plainConfig.recv_cb ∧
    (DenoIsolate.new plainConfig 100).shared_ = plainConfig.shared ∧
    smallSnapshotConfig.load_snapshot.data_ptr ≠ 0 ∧
    ∃ sd, (DenoIsolate.new smallSnapshotConfig 100).snapshot_ = some sd ∧
      sd.data = smallSnapshotConfig.load_snapshot.data_ptr ∧
      sd.raw_size = static_cast_int smallSnapshotConfig.load_snapshot.data_len ∧
      (sd.raw_size = (smallSnapshotConfig.load_snapshot.data_len : Int) ↔
        smallSnapshotConfig.load_snapshot.data_len < 2 ^ 31) ∧
      (-(2 ^ 31 : Int) ≤ sd.raw_size ∧ sd.raw_size < 2 ^ 31) ∧
      (sd.raw_size - (smallSnapshotConfig.load_snapshot.data_len : Int)) % 2 ^ 32 = 0 :=
  ⟨(constructor_attaches_snapshot plainConfig 100).1,
    (constructor_attaches_snapshot plainConfig 100).2.1,
    by decide,
    (constructor_attaches_snapshot smallSnapshotConfig 100).2.2 (by decide)⟩

/-- C10: for every zero-copy table (ordered, as `std::map` keeps it), id and value,
`AddZeroCopyRef(id, v)` leaves exactly one reference stored under `id`, every other
id mapped to what it was mapped to, the table ordered and every other member
untouched; when `id` was absent it now maps to a persistent handle on `v`, and when
`id` was live the isolate is unchanged (the existing reference stays, `v` is not
stored). -/
theorem AddZeroCopyRef_one_reference_per_id (d : DenoIsolate) (id : Nat) (v : Local)
    (ho : d.zero_copy_map_.Ordered) :
    (d.AddZeroCopyRef id v).zero_copy_map_.countKey id = 1 ∧
    (∀ j, j ≠ id →
      (d.AddZeroCopyRef id v).zero_copy_map_.find j = d.zero_copy_map_.find j) ∧
    (d.zero_copy_map_.find id = none →
      (d.AddZeroCopyRef id v).zero_copy_map_.find id = some ⟨d.isolate_, v⟩) ∧
    (d.zero_copy_map_.find id ≠ none → d.AddZeroCopyRef id v = d) ∧
    (d.AddZeroCopyRef id v).zero_copy_map_.Ordered ∧
    d.AddZeroCopyRef id v =
      { d with zero_copy_map_ := (d.AddZeroCopyRef id v).zero_copy_map_ } := by
  refine ⟨?_, ?_, ?_, ?_, ?_, rfl⟩
  · exact StdMap.countKey_emplace _ _ _ ho
  · intro j hj
    exact StdMap.find_emplace_ne _ _ _ _ hj
  · intro habs
    exact StdMap.find_emplace_absent _ _ _ habs
  · intro hlive
    unfold AddZeroCopyRef
    rw [StdMap.emplace_of_find_some _ _ _ ho hlive]
  · exact StdMap.ordered_emplace _ _ _ ho

/-- C10, at a table holding ids 1 and 3, adding a reference under the live id 3. -/
theorem AddZeroCopyRef_one_reference_per_id_witness :
    tableIsolate.zero_copy_map_.Ordered ∧
    (tableIsolate.AddZeroCopyRef 3 99).zero_copy_map_.countKey 3 = 1 ∧
    (∀ j, j ≠ 3 →
      (tableIsolate.AddZeroCopyRef 3 99).zero_copy_map_.find j
        = tableIsolate.zero_copy_map_.find j) ∧
    (tableIsolate.zero_copy_map_.find 3 = none →
      (tableIsolate.AddZeroCopyRef 3 99).zero_copy_map_.find 3
        = some ⟨tableIsolate.isolate_, 99⟩) ∧
    (tableIsolate.zero_copy_map_.find 3 ≠ none →
      tableIsolate.AddZeroCopyRef 3 99 = tableIsolate) ∧
    (tableIsolate.AddZeroCopyRef 3 99).zero_copy_map_.Ordered ∧
    tableIsolate.AddZeroCopyRef 3 99 =
      { tableIsolate with
        zero_copy_map_ := (tableIsolate.AddZeroCopyRef 3 99).zero_copy_map_ } :=
  ⟨by decide, AddZeroCopyRef_one_reference_per_id tableIsolate 3 99 (by decide)⟩

end deno
